import Mathlib

/-!
Verification of the water-reminder mobile app.

The hydration tracker lives in `src/app/(tabs)/index.tsx`; the notification
timer screen lives in the other source file (`TimerScreen`).  Both are
embedded shallowly: each event handler becomes a pure function from its
inputs (component state, parsed text inputs, and the platform scheduler's
response, passed in as an oracle) to the new state together with a trace of
the external calls it makes.  JavaScript truthiness on optional strings
(`undefined`, `null` and `""` are all falsy) is modelled by `truthy`.
-/

namespace WaterReminder

/-- JS truthiness of an optional string: `undefined`/`null`/`""` are falsy. -/
def truthy : Option String → Bool
  | none => false
  | some s => s != ""

/-! ## Hydration tracker (`src/app/(tabs)/index.tsx`) -/

/-- The two persistent numeric fields of the hydration screen
(`glasses`, `goal` React state). -/
structure HydrationState where
  glasses : Nat
  goal : Int
deriving Repr, DecidableEq

/-- `addGlass`: `setGlasses(glasses + 1)`. -/
def addGlass (glasses : Nat) : Nat := glasses + 1

/-- `resetGlasses`: `setGlasses(0)`. -/
def resetGlasses (_glasses : Nat) : Nat := 0

/-- `updateGoal`: parses the modal's text (`none` models a `NaN` parse) and
accepts only `goalValue > 0 && goalValue <= 20`; otherwise an alert is shown
and nothing changes.  The returned `Bool` is `true` when the validation
alert was surfaced. -/
def updateGoal (st : HydrationState) (newGoal : Option Int) : HydrationState × Bool :=
  match newGoal with
  | none => (st, true)
  | some v => if 0 < v ∧ v ≤ 20 then ({ st with goal := v }, false) else (st, true)

/-- `checkAndResetForNewDay`: reads the stored `lastDate` (`none` when the
key is absent) and compares it with `today`; on a difference the counter is
reset.  The stored date is then always rewritten to `today`.  Returns the
new counter value and the newly stored date string. -/
def checkAndResetForNewDay (glasses : Nat) (lastDate : Option String) (today : String) :
    Nat × String :=
  let isNewDay := match lastDate with
    | none => false
    | some s => s != "" && s != today
  ((if isNewDay then 0 else glasses), today)

/-- The goal-completion effect: `glasses > 0 && glasses === goal` (the
`isLoading` guard is `false` once the screen has loaded). -/
def completionTriggered (glasses : Nat) (goal : Int) : Bool :=
  decide (0 < glasses) && decide ((glasses : Int) = goal)

/-- The successive counter values produced by repeatedly pressing
`+1 Glass` starting from `g`: the effect dependency array re-runs the
completion check exactly at these state changes. -/
def runAddGlasses : Nat → Nat → List Nat
  | 0, _ => []
  | n + 1, g => (addGlass g) :: runAddGlasses n (addGlass g)

/-- How many of the counter states in a trace fire the completion effect. -/
def completionEvents (goal : Int) (trace : List Nat) : Nat :=
  (trace.filter (fun g => completionTriggered g goal)).length

/-! ## Notification timer screen (`TimerScreen`) -/

/-- The `NotificationTimer` record.  `notificationId` is `string | null |
undefined` in the source; both absent forms are modelled by `none`. -/
structure NotificationTimer where
  id : Nat
  name : String
  hour : Int
  minute : Int
  isActive : Bool
  notificationId : Option String
deriving Repr, DecidableEq

/-- External calls made by the timer screen: platform cancels and schedule
requests, persistence writes, and user-facing alerts. -/
inductive Effect where
  | cancel (ref : String) : Effect
  | schedule (hour minute : Int) (name : String) : Effect
  | persist (timers : List NotificationTimer) : Effect
  | alert (title : String) : Effect
deriving Repr, DecidableEq

/-- `scheduleNotification(timer)`: cancels the timer's existing ref when
truthy, then issues one daily schedule request.  The platform's reply (the
fresh identifier, or `null` on failure) enters as `response` and is the
return value. -/
def scheduleNotification (timer : NotificationTimer) (response : Option String) :
    Option String × List Effect :=
  ((response),
    (if truthy timer.notificationId then [Effect.cancel (timer.notificationId.getD "")] else [])
      ++ [Effect.schedule timer.hour timer.minute timer.name])

/-- `addTimer`: parses the hour/minute inputs (`none` models `NaN`),
validates `0 ≤ hour ≤ 23` and `0 ≤ minute ≤ 59`, builds the new timer
(`id` is the `Date.now()` timestamp, blank names are defaulted), schedules
it, stores the returned id only when truthy, and appends. -/
def addTimer (timers : List NotificationTimer) (name : String)
    (hourIn minuteIn : Option Int) (newId : Nat) (response : Option String) :
    List NotificationTimer × List Effect :=
  match hourIn, minuteIn with
  | some h, some m =>
    if 0 ≤ h ∧ h ≤ 23 ∧ 0 ≤ m ∧ m ≤ 59 then
      let newTimer0 : NotificationTimer :=
        { id := newId
          name := if name = "" then "Notification " ++ toString (timers.length + 1) else name
          hour := h, minute := m, isActive := true, notificationId := none }
      let r := (scheduleNotification newTimer0 response).1
      let newTimer := if truthy r then { newTimer0 with notificationId := r } else newTimer0
      (timers ++ [newTimer],
        (scheduleNotification newTimer0 response).2 ++ [Effect.alert "Notification Added"])
    else (timers, [Effect.alert "Invalid Time"])
  | _, _ => (timers, [Effect.alert "Invalid Time"])

/-- `editTimer`: same validation as `addTimer`; rebuilds `editingTimer`
with the new name/time (keeping its old `notificationId`), reschedules,
overwrites the ref only when the reply is truthy, and replaces the entry
with the matching id in place. -/
def editTimer (timers : List NotificationTimer) (editingTimer : NotificationTimer)
    (name : String) (hourIn minuteIn : Option Int) (response : Option String) :
    List NotificationTimer × List Effect :=
  match hourIn, minuteIn with
  | some h, some m =>
    if 0 ≤ h ∧ h ≤ 23 ∧ 0 ≤ m ∧ m ≤ 59 then
      let updated0 : NotificationTimer :=
        { editingTimer with
          name := if name = "" then editingTimer.name else name
          hour := h, minute := m }
      let r := (scheduleNotification updated0 response).1
      let updated := if truthy r then { updated0 with notificationId := r } else updated0
      (timers.map (fun t => if t.id == editingTimer.id then updated else t),
        (scheduleNotification updated0 response).2)
    else (timers, [Effect.alert "Invalid Time"])
  | _, _ => (timers, [Effect.alert "Invalid Time"])

/-- `toggleTimer(id)`: a no-op when the id is absent; disabling cancels a
truthy ref and clears it; enabling schedules fresh and stores the raw reply
(even `null`). -/
def toggleTimer (timers : List NotificationTimer) (id : Nat) (response : Option String) :
    List NotificationTimer × List Effect :=
  match timers.find? (fun t => t.id == id) with
  | none => (timers, [])
  | some timer =>
    if timer.isActive then
      (timers.map (fun t =>
          if t.id == id then { t with isActive := false, notificationId := none } else t),
        if truthy timer.notificationId then [Effect.cancel (timer.notificationId.getD "")] else [])
    else
      (timers.map (fun t =>
          if t.id == id then
            { t with isActive := true, notificationId := (scheduleNotification timer response).1 }
          else t),
        (scheduleNotification timer response).2)

/-- `deleteTimer(id)`, after the user confirms the destructive prompt:
cancels the found timer's ref when truthy, then filters the entry out. -/
def deleteTimer (timers : List NotificationTimer) (id : Nat) :
    List NotificationTimer × List Effect :=
  let cancels := match timers.find? (fun t => t.id == id) with
    | some t => if truthy t.notificationId then [Effect.cancel (t.notificationId.getD "")] else []
    | none => []
  (timers.filter (fun t => t.id != id), cancels)

/-- The rescheduling pass of `loadTimers`: walks the parsed entries; for
each entry with `isActive` it issues one schedule call (the `k`-th call
overall gets the oracle's `k`-th reply) and overwrites the stored ref only
when the reply is truthy. -/
def rescheduleAll (oracle : Nat → Option String) (k : Nat) :
    List NotificationTimer → List NotificationTimer × List Effect
  | [] => ([], [])
  | t :: ts =>
    if t.isActive then
      let r := (scheduleNotification t (oracle k)).1
      let t' := if truthy r then { t with notificationId := r } else t
      let rest := rescheduleAll oracle (k + 1) ts
      (t' :: rest.1, (scheduleNotification t (oracle k)).2 ++ rest.2)
    else
      let rest := rescheduleAll oracle k ts
      (t :: rest.1, rest.2)

/-- `loadTimers`: when a persisted collection exists, first cancels every
platform-pending notification (`pending` is what
`getAllScheduledNotificationsAsync` enumerates), then reschedules all
active entries, then sets state and persists the updated collection. -/
def loadTimers (pending : List String) (saved : Option (List NotificationTimer))
    (oracle : Nat → Option String) : Option (List NotificationTimer) × List Effect :=
  match saved with
  | none => (none, [])
  | some parsed =>
    let res := rescheduleAll oracle 0 parsed
    (some res.1, pending.map Effect.cancel ++ res.2 ++ [Effect.persist res.1])

/-- How many schedule requests a trace contains. -/
def scheduleCount (trace : List Effect) : Nat :=
  (trace.filter (fun e => match e with | Effect.schedule _ _ _ => true | _ => false)).length

/-- Number of active entries strictly before position `i`: the rank of the
schedule call that entry `i` receives during start-up rescheduling. -/
def activeBefore (timers : List NotificationTimer) (i : Nat) : Nat :=
  ((timers.take i).filter (fun t => t.isActive)).length

/-- `formatTime`: 12-hour rendering of the 24-hour fields, with
`padStart(2, '0')` on the minute. -/
def padStart2 (s : String) : String :=
  String.mk (List.replicate (2 - s.length) '0' ++ s.data)

/-- `formatTime(hour, minute)` from the source. -/
def formatTime (hour minute : Int) : String :=
  let period := if hour ≥ 12 then "PM" else "AM"
  let displayHour := if hour = 0 then 12 else if hour > 12 then hour - 12 else hour
  toString displayHour ++ ":" ++ padStart2 (toString minute) ++ " " ++ period

/-- The 12-hour display convention as the specification states it: hour 0
renders as 12 AM, hour 12 as 12 PM, 1–11 unchanged with AM, 13–23 as
hour−12 with PM, minutes zero-padded to two digits. -/
def formatTimeSpec (hour minute : Int) : String :=
  let mm := if minute < 10 then "0" ++ toString minute else toString minute
  if hour = 0 then "12:" ++ mm ++ " AM"
  else if hour ≤ 11 then toString hour ++ ":" ++ mm ++ " AM"
  else if hour = 12 then "12:" ++ mm ++ " PM"
  else toString (hour - 12) ++ ":" ++ mm ++ " PM"

/-- An active timer with a stored platform reference, used to exhibit what
`editTimer` does when its schedule call fails. -/
def c1Timer : NotificationTimer :=
  { id := 1, name := "Morning", hour := 8, minute := 0, isActive := true,
    notificationId := some "ref-old" }

end WaterReminder

namespace WaterReminder

/-! ## Helper lemmas -/

theorem completionEvents_nil (goal : Int) : completionEvents goal [] = 0 := rfl

theorem completionEvents_cons (goal : Int) (x : Nat) (tr : List Nat) :
    completionEvents goal (x :: tr) =
      (if completionTriggered x goal then 1 else 0) + completionEvents goal tr := by
  simp only [completionEvents, List.filter_cons]
  by_cases h : completionTriggered x goal = true
  · simp [h, Nat.add_comm]
  · simp [h]

theorem completionEvents_runAdd (goal : Int) :
    ∀ (n g : Nat), completionEvents goal (runAddGlasses n g) =
      if (g : Int) < goal ∧ goal ≤ (g : Int) + (n : Int) then 1 else 0 := by
  intro n
  induction n with
  | zero =>
    intro g
    simp only [runAddGlasses, completionEvents_nil]
    split
    · omega
    · rfl
  | succ n ih =>
    intro g
    have hstep : runAddGlasses (n + 1) g = (g + 1) :: runAddGlasses n (g + 1) := rfl
    rw [hstep, completionEvents_cons, ih (g + 1)]
    have htrig : completionTriggered (g + 1) goal = true ↔ (g : Int) + 1 = goal := by
      simp only [completionTriggered, Bool.and_eq_true, decide_eq_true_eq]
      constructor
      · intro hx
        have := hx.2
        push_cast at this
        omega
      · intro hx
        refine ⟨Nat.succ_pos g, ?_⟩
        push_cast
        omega
    by_cases hc : completionTriggered (g + 1) goal = true
    · have h1 : (g : Int) + 1 = goal := htrig.mp hc
      simp only [hc, if_true]
      rw [if_neg (by push_cast; omega), if_pos (by push_cast; omega)]
    · have h1 : ¬ ((g : Int) + 1 = goal) := fun hx => hc (htrig.mpr hx)
      simp only [Bool.not_eq_true] at hc
      simp only [hc, Bool.false_eq_true, if_false, Nat.zero_add]
      push_cast
      split_ifs with p q <;> push_cast at p <;> omega

end WaterReminder

namespace WaterReminder

/-! ## Claim theorems: hydration tracker -/

/-- C3: `setGoal(g)` succeeds (the stored goal becomes `g`, no alert) iff
`1 ≤ g ≤ 20`; for any other input, including a non-numeric one (`none`),
a validation alert is surfaced and neither the goal nor the glasses counter
changes; the glasses counter is never touched. -/
theorem updateGoal_spec (st : HydrationState) (g : Option Int) :
    (∀ v, g = some v → 1 ≤ v → v ≤ 20 → updateGoal st g = ({ st with goal := v }, false))
    ∧ ((∀ v, g = some v → v < 1 ∨ 20 < v) → updateGoal st g = (st, true))
    ∧ (updateGoal st g).1.glasses = st.glasses := by
  match g with
  | none => exact ⟨fun v hv => (nomatch hv), fun _ => rfl, rfl⟩
  | some w =>
    refine ⟨?_, ?_, ?_⟩
    · intro v hv h1 h2
      cases hv
      simp only [updateGoal]
      rw [if_pos (by omega)]
    · intro hout
      have := hout w rfl
      simp only [updateGoal]
      rw [if_neg (by omega)]
    · simp only [updateGoal]
      split <;> rfl

/-- Witness for C3: goal 10 is accepted, goal 25 is rejected with no state
change. -/
theorem updateGoal_spec_witness :
    updateGoal ⟨3, 8⟩ (some 10) = (⟨3, 10⟩, false)
    ∧ updateGoal ⟨3, 8⟩ (some 25) = (⟨3, 8⟩, true) :=
  ⟨(updateGoal_spec ⟨3, 8⟩ (some 10)).1 10 rfl (by decide) (by decide),
   (updateGoal_spec ⟨3, 8⟩ (some 25)).2.1 (fun v hv => by cases hv; omega)⟩

/-- C4: with a stored (hence non-empty, date-string) `lastDate`, the
rollover check resets the counter to 0 and stores today when the stored
date differs from today, and leaves both the counter and the stored date
value unchanged when they are equal. -/
theorem checkAndResetForNewDay_spec (glasses : Nat) (d today : String) (hd : d ≠ "") :
    (d ≠ today → checkAndResetForNewDay glasses (some d) today = (0, today))
    ∧ (d = today → checkAndResetForNewDay glasses (some d) today = (glasses, d)) := by
  constructor
  · intro hne
    simp [checkAndResetForNewDay, hd, hne]
  · intro heq
    subst heq
    simp [checkAndResetForNewDay]

/-- Witness for C4: a stale date resets the counter; a same-day check is a
no-op. -/
theorem checkAndResetForNewDay_spec_witness :
    checkAndResetForNewDay 4 (some "Mon Jan 01 2024") "Tue Jan 02 2024" = (0, "Tue Jan 02 2024")
    ∧ checkAndResetForNewDay 4 (some "Tue Jan 02 2024") "Tue Jan 02 2024"
        = (4, "Tue Jan 02 2024") :=
  ⟨(checkAndResetForNewDay_spec 4 "Mon Jan 01 2024" "Tue Jan 02 2024" (by decide)).1 (by decide),
   (checkAndResetForNewDay_spec 4 "Tue Jan 02 2024" "Tue Jan 02 2024" (by decide)).2 rfl⟩

/-- C5: `n` presses of `+1 Glass` from 0 yield a count of `n` (no upper
clamp), the completion effect fires exactly once over the whole sequence —
iff `0 < goal ≤ n` — and it can only fire at a state whose count equals the
goal (hence at the first and only transition reaching the goal, since the
count increases strictly). -/
theorem addGlass_completion_spec (n : Nat) (goal : Int) :
    addGlass^[n] 0 = n
    ∧ completionEvents goal (runAddGlasses n 0) =
        (if 0 < goal ∧ goal ≤ (n : Int) then 1 else 0)
    ∧ (∀ x ∈ runAddGlasses n 0, completionTriggered x goal = true → (x : Int) = goal) := by
  refine ⟨?_, ?_, ?_⟩
  · induction n with
    | zero => rfl
    | succ k ih => rw [Function.iterate_succ_apply', ih]; rfl
  · rw [completionEvents_runAdd goal n 0]
    norm_num
  · intro x _ hx
    simp only [completionTriggered, Bool.and_eq_true, decide_eq_true_eq] at hx
    exact hx.2

/-- Witness for C5: five presses with goal 3 give a count of 5 and exactly
one completion event, and the triggering state 3 indeed equals the goal. -/
theorem addGlass_completion_spec_witness :
    addGlass^[5] 0 = 5
    ∧ completionEvents 3 (runAddGlasses 5 0) = 1
    ∧ ((3 : Nat) : Int) = 3 := by
  have h := addGlass_completion_spec 5 3
  exact ⟨h.1, by have := h.2.1; simpa using this, h.2.2 3 (by decide) (by decide)⟩

set_option maxRecDepth 10000 in
/-- C9: for every hour in 0..23 and minute in 0..59, `formatTime` agrees
with the stated 12-hour convention (`0 ↦ 12 AM`, `12 ↦ 12 PM`, `1..11`
unchanged AM, `13..23 ↦ hour−12` PM, minutes zero-padded to two digits). -/
theorem formatTime_matches_spec : ∀ h : Nat, h < 24 → ∀ m : Nat, m < 60 →
    formatTime (h : Int) (m : Int) = formatTimeSpec (h : Int) (m : Int) := by decide

/-- Witness for C9: 13:05 renders as 1:05 PM under both definitions. -/
theorem formatTime_matches_spec_witness :
    formatTime ((13 : Nat) : Int) ((5 : Nat) : Int)
      = formatTimeSpec ((13 : Nat) : Int) ((5 : Nat) : Int) :=
  formatTime_matches_spec 13 (by decide) 5 (by decide)

end WaterReminder

namespace WaterReminder

/-! ## Helper lemmas: timer collection updates -/

theorem find?_map_id_preserving (l : List NotificationTimer) (id : Nat)
    (g : NotificationTimer → NotificationTimer) (hg : ∀ u, (g u).id = u.id) :
    (l.map g).find? (fun u => u.id == id) = (l.find? (fun u => u.id == id)).map g := by
  have hp : ((fun u : NotificationTimer => u.id == id) ∘ g) = (fun u => u.id == id) := by
    funext u
    simp [Function.comp, hg u]
  rw [List.find?_map, hp]

/-! ## Claim theorems: timer screen -/

/-- C6: `addTimer` rejects (alert, collection untouched) unless both parsed
fields are numbers with `0 ≤ hour ≤ 23` and `0 ≤ minute ≤ 59`; on valid
input it appends exactly one new entry at the end, active, with the new id,
the requested time, and — when the schedule call succeeds with a (truthy)
identifier — that identifier stored. -/
theorem addTimer_spec (timers : List NotificationTimer) (name : String)
    (hourIn minuteIn : Option Int) (newId : Nat) (r : Option String) :
    ((hourIn = none ∨ minuteIn = none ∨
        (∃ h m, hourIn = some h ∧ minuteIn = some m ∧
          ¬(0 ≤ h ∧ h ≤ 23 ∧ 0 ≤ m ∧ m ≤ 59))) →
      addTimer timers name hourIn minuteIn newId r = (timers, [Effect.alert "Invalid Time"]))
    ∧ (∀ h m, hourIn = some h → minuteIn = some m →
        0 ≤ h → h ≤ 23 → 0 ≤ m → m ≤ 59 →
        ∃ nt, (addTimer timers name hourIn minuteIn newId r).1 = timers ++ [nt]
          ∧ nt.id = newId ∧ nt.isActive = true ∧ nt.hour = h ∧ nt.minute = m
          ∧ (∀ s, r = some s → s ≠ "" → nt.notificationId = some s)) := by
  constructor
  · rintro (rfl | rfl | ⟨h, m, rfl, rfl, hout⟩)
    · cases minuteIn <;> rfl
    · cases hourIn <;> rfl
    · simp only [addTimer]
      rw [if_neg hout]
  · rintro h m rfl rfl h0 h23 m0 m59
    have hcond : 0 ≤ h ∧ h ≤ 23 ∧ 0 ≤ m ∧ m ≤ 59 := ⟨h0, h23, m0, m59⟩
    by_cases htr : truthy r = true
    · simp only [addTimer, if_pos hcond, scheduleNotification, htr, if_true]
      refine ⟨_, rfl, rfl, rfl, rfl, rfl, ?_⟩
      intro s hs _
      subst hs
      rfl
    · rw [Bool.not_eq_true] at htr
      simp only [addTimer, if_pos hcond, scheduleNotification, htr, Bool.false_eq_true, if_false]
      refine ⟨_, rfl, rfl, rfl, rfl, rfl, ?_⟩
      intro s hs hne
      subst hs
      simp [truthy] at htr
      exact absurd htr hne

/-- Witness for C6: a valid 8:00 add appends one active entry carrying the
scheduler's identifier, and an out-of-range hour is rejected. -/
theorem addTimer_spec_witness :
    (∃ nt, (addTimer [] "W" (some 8) (some 0) 42 (some "n0")).1 = [] ++ [nt]
      ∧ nt.id = 42 ∧ nt.isActive = true ∧ nt.hour = 8 ∧ nt.minute = 0
      ∧ (∀ s, (some "n0" : Option String) = some s → s ≠ "" → nt.notificationId = some s))
    ∧ addTimer [] "W" (some 24) (some 0) 42 (some "n0") = ([], [Effect.alert "Invalid Time"]) :=
  ⟨(addTimer_spec [] "W" (some 8) (some 0) 42 (some "n0")).2 8 0 rfl rfl
      (by decide) (by decide) (by decide) (by decide),
   (addTimer_spec [] "W" (some 24) (some 0) 42 (some "n0")).1
      (Or.inr (Or.inr ⟨24, 0, rfl, rfl, by omega⟩))⟩

/-- C10: `toggleTimer` and `editTimer` preserve the collection's length and
order and leave every entry whose id differs from the target bit-for-bit
unchanged; `toggleTimer` on an id that is not in the collection changes
nothing (and makes no platform call). -/
theorem toggle_edit_frame (timers : List NotificationTimer) (id : Nat) (r : Option String)
    (editing : NotificationTimer) (name : String) (hourIn minuteIn : Option Int)
    (r2 : Option String) :
    (toggleTimer timers id r).1.length = timers.length
    ∧ (∀ (i : Nat) (t : NotificationTimer), timers[i]? = some t → ¬ t.id = id →
        (toggleTimer timers id r).1[i]? = some t)
    ∧ ((∀ t ∈ timers, ¬ t.id = id) → toggleTimer timers id r = (timers, []))
    ∧ (editTimer timers editing name hourIn minuteIn r2).1.length = timers.length
    ∧ (∀ (i : Nat) (t : NotificationTimer), timers[i]? = some t → ¬ t.id = editing.id →
        (editTimer timers editing name hourIn minuteIn r2).1[i]? = some t) := by
  refine ⟨?_, ?_, ?_, ?_, ?_⟩
  · rcases hfind : timers.find? (fun x => x.id == id) with _ | tm
    · simp [toggleTimer, hfind]
    · by_cases ha : tm.isActive = true <;> simp [toggleTimer, hfind, ha]
  · intro i t hit hne
    have hbeq : (t.id == id) = false := by simp [hne]
    rcases hfind : timers.find? (fun x => x.id == id) with _ | tm
    · simp [toggleTimer, hfind, hit]
    · by_cases ha : tm.isActive = true <;>
        simp [toggleTimer, hfind, ha, List.getElem?_map, hit, hbeq] <;>
        (intro hx; exact absurd hx hne)
  · intro hall
    have hfindn : timers.find? (fun x => x.id == id) = none := by
      rw [List.find?_eq_none]
      intro x hx
      simp [hall x hx]
    simp [toggleTimer, hfindn]
  · rcases hourIn with _ | h
    · cases minuteIn <;> rfl
    · rcases minuteIn with _ | m
      · rfl
      · by_cases hcond : 0 ≤ h ∧ h ≤ 23 ∧ 0 ≤ m ∧ m ≤ 59 <;>
          simp [editTimer, hcond]
  · intro i t hit hne
    have hbeq : (t.id == editing.id) = false := by simp [hne]
    rcases hourIn with _ | h
    · cases minuteIn <;> simpa using hit
    · rcases minuteIn with _ | m
      · simpa using hit
      · by_cases hcond : 0 ≤ h ∧ h ≤ 23 ∧ 0 ≤ m ∧ m ≤ 59 <;>
          simp [editTimer, hcond, List.getElem?_map, hit, hbeq]
        all_goals (intro hx; exact absurd hx hne)

/-- Witness for C10: toggling id 1 in a two-timer list keeps length 2 and
leaves the other entry untouched; toggling an absent id is a no-op. -/
theorem toggle_edit_frame_witness :
    (toggleTimer
        [⟨1, "A", 8, 0, true, some "r1"⟩, ⟨2, "B", 9, 30, false, none⟩] 1 (some "x")).1.length = 2
    ∧ (toggleTimer
        [⟨1, "A", 8, 0, true, some "r1"⟩, ⟨2, "B", 9, 30, false, none⟩] 1 (some "x")).1[1]?
        = some ⟨2, "B", 9, 30, false, none⟩
    ∧ toggleTimer [⟨1, "A", 8, 0, true, some "r1"⟩, ⟨2, "B", 9, 30, false, none⟩] 7 (some "x")
        = ([⟨1, "A", 8, 0, true, some "r1"⟩, ⟨2, "B", 9, 30, false, none⟩], []) := by
  have h := toggle_edit_frame
    [⟨1, "A", 8, 0, true, some "r1"⟩, ⟨2, "B", 9, 30, false, none⟩] 1 (some "x")
    ⟨1, "A", 8, 0, true, some "r1"⟩ "A" (some 8) (some 0) none
  have h7 := toggle_edit_frame
    [⟨1, "A", 8, 0, true, some "r1"⟩, ⟨2, "B", 9, 30, false, none⟩] 7 (some "x")
    ⟨1, "A", 8, 0, true, some "r1"⟩ "A" (some 8) (some 0) none
  exact ⟨h.1, h.2.1 1 ⟨2, "B", 9, 30, false, none⟩ (by decide) (by decide),
    h7.2.2.1 (by decide)⟩

end WaterReminder

namespace WaterReminder

theorem toggleTimer_fst_of_find_active (l : List NotificationTimer) (id : Nat)
    (r : Option String) (tm : NotificationTimer)
    (hfind : l.find? (fun x => x.id == id) = some tm) (ha : tm.isActive = true) :
    (toggleTimer l id r).1 = l.map (fun u => if u.id == id then
      { u with isActive := false, notificationId := none } else u) := by
  simp [toggleTimer, hfind, ha]

theorem toggleTimer_fst_of_find_inactive (l : List NotificationTimer) (id : Nat)
    (r : Option String) (tm : NotificationTimer)
    (hfind : l.find? (fun x => x.id == id) = some tm) (ha : tm.isActive = false) :
    (toggleTimer l id r).1 = l.map (fun u => if u.id == id then
      { u with isActive := true, notificationId := r } else u) := by
  simp [toggleTimer, hfind, ha, scheduleNotification]

/-- C7: for an id present in the collection, two `toggleTimer` calls
restore the original `isActive` flag; the reference is not restored — when
the timer was active, the second call (the enable) stores exactly the
scheduler's fresh reply `r2`, whatever the original reference was. -/
theorem toggleTimer_twice (timers : List NotificationTimer) (id : Nat)
    (r1 r2 : Option String) (t : NotificationTimer)
    (hfind : timers.find? (fun x => x.id == id) = some t) :
    ∃ t', (toggleTimer (toggleTimer timers id r1).1 id r2).1.find? (fun x => x.id == id)
        = some t'
      ∧ t'.isActive = t.isActive
      ∧ (t.isActive = true → t'.notificationId = r2) := by
  have hpid : (t.id == id) = true := by
    obtain ⟨hp, -⟩ := List.find?_eq_some.mp hfind
    exact hp
  have htid : t.id = id := by simpa using hpid
  by_cases ha : t.isActive = true
  · have h1 := toggleTimer_fst_of_find_active timers id r1 t hfind ha
    have hg1 : ∀ u : NotificationTimer,
        ((fun u => if u.id == id then
          ({ u with isActive := false, notificationId := none } : NotificationTimer)
          else u) u).id = u.id := by
      intro u
      by_cases hu : (u.id == id) = true <;> simp [hu]
    have hfind1 : (toggleTimer timers id r1).1.find? (fun x => x.id == id)
        = some { t with isActive := false, notificationId := none } := by
      rw [h1, find?_map_id_preserving _ _ _ hg1, hfind]
      simp [hpid, htid]
    have h2 := toggleTimer_fst_of_find_inactive (toggleTimer timers id r1).1 id r2
      { t with isActive := false, notificationId := none } hfind1 rfl
    have hg2 : ∀ u : NotificationTimer,
        ((fun u => if u.id == id then
          ({ u with isActive := true, notificationId := r2 } : NotificationTimer)
          else u) u).id = u.id := by
      intro u
      by_cases hu : (u.id == id) = true <;> simp [hu]
    refine ⟨{ t with isActive := true, notificationId := r2 }, ?_, ?_, fun _ => rfl⟩
    · rw [h2, find?_map_id_preserving _ _ _ hg2, hfind1]
      simp [hpid, htid]
    · simp [ha]
  · rw [Bool.not_eq_true] at ha
    have h1 := toggleTimer_fst_of_find_inactive timers id r1 t hfind ha
    have hg1 : ∀ u : NotificationTimer,
        ((fun u => if u.id == id then
          ({ u with isActive := true, notificationId := r1 } : NotificationTimer)
          else u) u).id = u.id := by
      intro u
      by_cases hu : (u.id == id) = true <;> simp [hu]
    have hfind1 : (toggleTimer timers id r1).1.find? (fun x => x.id == id)
        = some { t with isActive := true, notificationId := r1 } := by
      rw [h1, find?_map_id_preserving _ _ _ hg1, hfind]
      simp [hpid, htid]
    have h2 := toggleTimer_fst_of_find_active (toggleTimer timers id r1).1 id r2
      { t with isActive := true, notificationId := r1 } hfind1 rfl
    have hg2 : ∀ u : NotificationTimer,
        ((fun u => if u.id == id then
          ({ u with isActive := false, notificationId := none } : NotificationTimer)
          else u) u).id = u.id := by
      intro u
      by_cases hu : (u.id == id) = true <;> simp [hu]
    refine ⟨{ t with isActive := false, notificationId := none }, ?_, ?_, ?_⟩
    · rw [h2, find?_map_id_preserving _ _ _ hg2, hfind1]
      simp [hpid, htid]
    · simp [ha]
    · intro hcontra
      rw [ha] at hcontra
      cases hcontra

/-- Witness for C7: toggling an active timer with stored ref `"r1"` twice
restores `isActive = true` but ends with the fresh ref `"r3"`. -/
theorem toggleTimer_twice_witness :
    ∃ t', (toggleTimer
        (toggleTimer [⟨1, "A", 8, 0, true, some "r1"⟩] 1 (some "r2")).1 1 (some "r3")).1.find?
          (fun x => x.id == 1) = some t'
      ∧ t'.isActive = (⟨1, "A", 8, 0, true, some "r1"⟩ : NotificationTimer).isActive
      ∧ ((⟨1, "A", 8, 0, true, some "r1"⟩ : NotificationTimer).isActive = true →
          t'.notificationId = some "r3") :=
  toggleTimer_twice [⟨1, "A", 8, 0, true, some "r1"⟩] 1 (some "r2") (some "r3")
    ⟨1, "A", 8, 0, true, some "r1"⟩ (by decide)

/-- C8: with unique ids and a well-formed reference (absent or non-empty),
a confirmed `deleteTimer(id)` on a present id removes exactly the found
entry — the prefix and suffix around it survive unchanged — and issues
exactly one cancel call (of that entry's reference) iff the entry carried a
reference. -/
theorem deleteTimer_spec (timers : List NotificationTimer) (id : Nat) (t : NotificationTimer)
    (hnd : (timers.map (fun x => x.id)).Nodup)
    (hfind : timers.find? (fun x => x.id == id) = some t)
    (href : t.notificationId = none ∨ ∃ s, t.notificationId = some s ∧ s ≠ "") :
    (∃ l1 l2, timers = l1 ++ t :: l2 ∧ (deleteTimer timers id).1 = l1 ++ l2
      ∧ (deleteTimer timers id).1.length + 1 = timers.length)
    ∧ (deleteTimer timers id).2 =
        (match t.notificationId with
          | some s => [Effect.cancel s]
          | none => []) := by
  obtain ⟨hp, l1, l2, hsplit, hl1⟩ := List.find?_eq_some.mp hfind
  have htid : t.id = id := by simpa using hp
  have hresult : (deleteTimer timers id).1 = l1 ++ l2 := by
    have hfilter : (deleteTimer timers id).1 = timers.filter (fun x => x.id != id) := rfl
    rw [hfilter, hsplit, List.filter_append, List.filter_cons]
    have hkeep1 : l1.filter (fun x => x.id != id) = l1 := by
      rw [List.filter_eq_self]
      intro a ha
      have := hl1 a ha
      simpa using this
    have hl2nodup : ∀ x ∈ l2, ¬ x.id = id := by
      intro x hx hxid
      rw [hsplit] at hnd
      simp only [List.map_append, List.map_cons, List.nodup_append, List.nodup_cons] at hnd
      exact hnd.2.1.1 (by
        rw [htid, ← hxid]
        exact List.mem_map_of_mem (fun y => y.id) hx)
    have hkeep2 : l2.filter (fun x => x.id != id) = l2 := by
      rw [List.filter_eq_self]
      intro a ha
      simpa using hl2nodup a ha
    rw [hkeep1, hkeep2]
    simp [htid]
  constructor
  · refine ⟨l1, l2, hsplit, hresult, ?_⟩
    rw [hresult, hsplit]
    simp only [List.length_append, List.length_cons]
    omega
  · have heff : (deleteTimer timers id).2 =
        (if truthy t.notificationId then [Effect.cancel (t.notificationId.getD "")] else []) := by
      simp [deleteTimer, hfind]
    rw [heff]
    rcases href with hnone | ⟨s, hs, hsne⟩
    · simp [hnone, truthy]
    · simp [hs, truthy, hsne]

/-- Witness for C8: deleting id 1 from a two-timer list removes exactly
that entry and cancels its stored reference once. -/
theorem deleteTimer_spec_witness :
    (∃ l1 l2, [(⟨1, "A", 8, 0, true, some "r1"⟩ : NotificationTimer),
        ⟨2, "B", 9, 30, false, none⟩] = l1 ++ ⟨1, "A", 8, 0, true, some "r1"⟩ :: l2
      ∧ (deleteTimer [⟨1, "A", 8, 0, true, some "r1"⟩, ⟨2, "B", 9, 30, false, none⟩] 1).1
          = l1 ++ l2
      ∧ (deleteTimer [⟨1, "A", 8, 0, true, some "r1"⟩, ⟨2, "B", 9, 30, false, none⟩] 1).1.length
          + 1 = 2)
    ∧ (deleteTimer [⟨1, "A", 8, 0, true, some "r1"⟩, ⟨2, "B", 9, 30, false, none⟩] 1).2
        = [Effect.cancel "r1"] := by
  have h := deleteTimer_spec
    [⟨1, "A", 8, 0, true, some "r1"⟩, ⟨2, "B", 9, 30, false, none⟩] 1
    ⟨1, "A", 8, 0, true, some "r1"⟩ (by decide) (by decide)
    (Or.inr ⟨"r1", rfl, by decide⟩)
  exact ⟨h.1, h.2⟩

end WaterReminder

namespace WaterReminder

theorem editTimer_fst_failed (timers : List NotificationTimer) (editing : NotificationTimer)
    (name : String) (h m : Int) (hvalid : 0 ≤ h ∧ h ≤ 23 ∧ 0 ≤ m ∧ m ≤ 59) :
    (editTimer timers editing name (some h) (some m) none).1
      = timers.map (fun u => if u.id == editing.id then
          { editing with
            name := if name = "" then editing.name else name
            hour := h, minute := m } else u) := by
  simp [editTimer, hvalid, truthy, scheduleNotification]

/-- C1 fails as stated: editing `c1Timer` to 9:00 while the schedule call
fails (reply `null`) completes with the timer still `isActive = true` and
its old reference `"ref-old"` still present — the claim requires the
reference to be absent after a failed schedule call. -/
theorem editTimer_failed_keeps_ref_counterexample :
    (editTimer [c1Timer] c1Timer "Morning" (some 9) (some 0) none).1
      = [{ c1Timer with hour := 9 }]
    ∧ ({ c1Timer with hour := 9 } : NotificationTimer).isActive = true
    ∧ ¬ ({ c1Timer with hour := 9 } : NotificationTimer).notificationId = none := by
  refine ⟨by decide, rfl, by decide⟩

/-- C1 (amended): the stated invariant holds after `addTimer` (the new
entry is active with its reference present iff the schedule reply was
truthy, and absent after a failed call) and after `toggleTimer` (disable
leaves `isActive = false` with no reference; enable leaves `isActive =
true` with exactly the scheduler's reply).  `editTimer`, however, reacts to
a failed schedule call by leaving the edited entry's `isActive` flag and
previously stored reference unchanged, so a stale reference can remain
present with `isActive = true` after the failure (and the startup
rescheduling pass keeps old references the same way). -/
theorem refInvariant_amended (timers : List NotificationTimer) (name : String)
    (h m : Int) (newId : Nat) (r : Option String) (id : Nat)
    (editing : NotificationTimer)
    (hvalid : 0 ≤ h ∧ h ≤ 23 ∧ 0 ≤ m ∧ m ≤ 59) :
    (∃ nt, (addTimer timers name (some h) (some m) newId r).1 = timers ++ [nt]
      ∧ nt.isActive = true ∧ truthy nt.notificationId = truthy r
      ∧ (r = none → nt.notificationId = none))
    ∧ (∀ t, timers.find? (fun x => x.id == id) = some t → t.isActive = true →
        ∀ u ∈ (toggleTimer timers id r).1, u.id = id →
          u.isActive = false ∧ u.notificationId = none)
    ∧ (∀ t, timers.find? (fun x => x.id == id) = some t → t.isActive = false →
        ∀ u ∈ (toggleTimer timers id r).1, u.id = id →
          u.isActive = true ∧ u.notificationId = r)
    ∧ (∀ u ∈ (editTimer timers editing name (some h) (some m) none).1, u.id = editing.id →
        u.isActive = editing.isActive ∧ u.notificationId = editing.notificationId) := by
  refine ⟨?_, ?_, ?_, ?_⟩
  · by_cases htr : truthy r = true
    · refine ⟨{ id := newId, name := if name = "" then "Notification " ++ toString (timers.length + 1) else name, hour := h, minute := m, isActive := true, notificationId := r }, ?_, rfl, rfl, ?_⟩
      · simp only [addTimer]
        rw [if_pos hvalid]
        simp [scheduleNotification, htr]
      · intro hr
        subst hr
        simp [truthy] at htr
    · rw [Bool.not_eq_true] at htr
      refine ⟨{ id := newId, name := if name = "" then "Notification " ++ toString (timers.length + 1) else name, hour := h, minute := m, isActive := true, notificationId := none }, ?_, rfl, ?_, fun _ => rfl⟩
      · simp only [addTimer]
        rw [if_pos hvalid]
        simp [scheduleNotification, htr]
      · exact htr.symm
  · intro t hfind hact u hu huid
    rw [toggleTimer_fst_of_find_active timers id r t hfind hact] at hu
    obtain ⟨v, hv, hueq⟩ := List.mem_map.mp hu
    subst hueq
    by_cases hvid : (v.id == id) = true
    · simp [hvid]
    · rw [if_neg (by simp [hvid])] at huid ⊢
      exact absurd huid (by simpa using hvid)
  · intro t hfind hact u hu huid
    rw [toggleTimer_fst_of_find_inactive timers id r t hfind hact] at hu
    obtain ⟨v, hv, hueq⟩ := List.mem_map.mp hu
    subst hueq
    by_cases hvid : (v.id == id) = true
    · simp [hvid]
    · rw [if_neg (by simp [hvid])] at huid ⊢
      exact absurd huid (by simpa using hvid)
  · intro u hu huid
    rw [editTimer_fst_failed timers editing name h m hvalid] at hu
    obtain ⟨v, hv, hueq⟩ := List.mem_map.mp hu
    subst hueq
    by_cases hvid : (v.id == editing.id) = true
    · simp [hvid]
    · rw [if_neg (by simp [hvid])] at huid ⊢
      exact absurd huid (by simpa using hvid)

/-- Witness for the amended C1: a successful add stores the scheduler's
reply and satisfies the present-iff-truthy invariant at a concrete input. -/
theorem refInvariant_amended_witness :
    ∃ nt, (addTimer [] "W" (some 8) (some 0) 7 (some "z")).1 = [] ++ [nt]
      ∧ nt.isActive = true ∧ truthy nt.notificationId = truthy (some "z")
      ∧ ((some "z" : Option String) = none → nt.notificationId = none) :=
  (refInvariant_amended [] "W" 8 0 7 (some "z") 5 c1Timer (by decide)).1

end WaterReminder

namespace WaterReminder

theorem rescheduleAll_length (oracle : Nat → Option String) :
    ∀ (l : List NotificationTimer) (k : Nat), (rescheduleAll oracle k l).1.length = l.length := by
  intro l
  induction l with
  | nil => intro k; rfl
  | cons t ts ih =>
    intro k
    by_cases ht : t.isActive = true <;> simp [rescheduleAll, ht, ih]

theorem scheduleCount_append (a b : List Effect) :
    scheduleCount (a ++ b) = scheduleCount a + scheduleCount b := by
  simp [scheduleCount, List.filter_append]

theorem scheduleCount_scheduleNotification (t : NotificationTimer) (r : Option String) :
    scheduleCount (scheduleNotification t r).2 = 1 := by
  by_cases htr : truthy t.notificationId = true <;>
    simp [scheduleNotification, scheduleCount, htr]

theorem rescheduleAll_schedCount (oracle : Nat → Option String) :
    ∀ (l : List NotificationTimer) (k : Nat),
      scheduleCount (rescheduleAll oracle k l).2
        = (l.filter (fun t => t.isActive)).length := by
  intro l
  induction l with
  | nil => intro k; rfl
  | cons t ts ih =>
    intro k
    by_cases ht : t.isActive = true
    · have hsplit : (rescheduleAll oracle k (t :: ts)).2
          = (scheduleNotification t (oracle k)).2 ++ (rescheduleAll oracle (k + 1) ts).2 := by
        simp [rescheduleAll, ht]
      rw [hsplit, scheduleCount_append, scheduleCount_scheduleNotification, ih (k + 1)]
      simp [List.filter_cons, ht]
      omega
    · have hsplit : (rescheduleAll oracle k (t :: ts)).2 = (rescheduleAll oracle k ts).2 := by
        simp [rescheduleAll, ht]
      rw [hsplit, ih k]
      simp [List.filter_cons, ht]

theorem activeBefore_cons (a : NotificationTimer) (as : List NotificationTimer) (i : Nat) :
    activeBefore (a :: as) (i + 1) = (if a.isActive then 1 else 0) + activeBefore as i := by
  by_cases ha : a.isActive = true <;>
    simp [activeBefore, List.filter_cons, ha, Nat.add_comm]

theorem rescheduleAll_get (oracle : Nat → Option String)
    (hor : ∀ k, truthy (oracle k) = true) :
    ∀ (l : List NotificationTimer) (k i : Nat) (t : NotificationTimer), l[i]? = some t →
      (rescheduleAll oracle k l).1[i]? =
        some (if t.isActive then { t with notificationId := oracle (k + activeBefore l i) }
          else t) := by
  intro l
  induction l with
  | nil =>
    intro k i t hit
    simp at hit
  | cons a as ih =>
    intro k i t hit
    match i with
    | 0 =>
      rw [List.getElem?_cons_zero] at hit
      cases hit
      by_cases ha : a.isActive = true
      · simp [rescheduleAll, scheduleNotification, ha, hor k, activeBefore]
      · simp [rescheduleAll, scheduleNotification, ha, activeBefore]
    | j + 1 =>
      rw [List.getElem?_cons_succ] at hit
      by_cases ha : a.isActive = true
      · have hrec := ih (k + 1) j t hit
        have hidx : k + 1 + activeBefore as j = k + activeBefore (a :: as) (j + 1) := by
          rw [activeBefore_cons]
          simp [ha]
          omega
        rw [hidx] at hrec
        simpa [rescheduleAll, ha] using hrec
      · have hrec := ih k j t hit
        have hidx : k + activeBefore as j = k + activeBefore (a :: as) (j + 1) := by
          rw [activeBefore_cons]
          simp [ha]
        rw [hidx] at hrec
        simpa [rescheduleAll, ha] using hrec

/-- C2: when a persisted collection exists and every schedule call
succeeds, `loadTimers` first cancels every enumerated platform-pending
notification, then issues exactly one fresh schedule call per entry with
`isActive = true` (in entry order), overwrites exactly those entries'
stored references with the fresh replies (the `i`-th active entry receives
the reply to its own call), leaves inactive entries untouched, and finally
persists the updated collection. -/
theorem loadTimers_spec (pending : List String) (parsed : List NotificationTimer)
    (oracle : Nat → Option String) (hor : ∀ k, truthy (oracle k) = true) :
    ∃ ts mid,
      loadTimers pending (some parsed) oracle
        = (some ts, pending.map Effect.cancel ++ mid ++ [Effect.persist ts])
      ∧ scheduleCount mid = (parsed.filter (fun t => t.isActive)).length
      ∧ ts.length = parsed.length
      ∧ (∀ (i : Nat) (t : NotificationTimer), parsed[i]? = some t →
          ts[i]? = some (if t.isActive
            then { t with notificationId := oracle (activeBefore parsed i) } else t)) := by
  refine ⟨(rescheduleAll oracle 0 parsed).1, (rescheduleAll oracle 0 parsed).2, rfl,
    rescheduleAll_schedCount oracle parsed 0, rescheduleAll_length oracle parsed 0, ?_⟩
  intro i t hit
  have hrec := rescheduleAll_get oracle hor parsed 0 i t hit
  simpa using hrec

/-- Witness for C2: one pending platform notification, one active entry
with a stale ref and one inactive entry, all schedule calls succeeding. -/
theorem loadTimers_spec_witness :
    ∃ ts mid,
      loadTimers ["p1"]
          (some [⟨1, "A", 8, 0, true, some "r1"⟩, ⟨2, "B", 9, 30, false, none⟩])
          (fun _ => some "fresh")
        = (some ts, ["p1"].map Effect.cancel ++ mid ++ [Effect.persist ts])
      ∧ scheduleCount mid
          = ([⟨1, "A", 8, 0, true, some "r1"⟩,
              (⟨2, "B", 9, 30, false, none⟩ : NotificationTimer)].filter
                (fun t => t.isActive)).length
      ∧ ts.length = 2
      ∧ (∀ (i : Nat) (t : NotificationTimer),
          [⟨1, "A", 8, 0, true, some "r1"⟩,
            (⟨2, "B", 9, 30, false, none⟩ : NotificationTimer)][i]? = some t →
          ts[i]? = some (if t.isActive
            then { t with notificationId := (fun _ => some "fresh") i }
            else t)) := by
  have h := loadTimers_spec ["p1"]
    [⟨1, "A", 8, 0, true, some "r1"⟩, ⟨2, "B", 9, 30, false, none⟩]
    (fun _ => some "fresh") (fun _ => rfl)
  obtain ⟨ts, mid, h1, h2, h3, h4⟩ := h
  refine ⟨ts, mid, h1, h2, h3, ?_⟩
  intro i t hit
  have := h4 i t hit
  exact this

end WaterReminder
